import Mathlib

/-!
Verification of the AWSRAG pipeline: a shallow embedding of the two Lambda
handlers (`processor.py` for ingestion, `query.py` for retrieval) together
with theorems about their behaviour.

External collaborators (S3, Bedrock embedding/generation models, the PDF and
DOCX parsers, UTF-8 decoding, and per-statement database availability) are
parameters of the embedded handlers: each is a function that either succeeds
with a value or fails, exactly as the corresponding Python call either
returns or raises.  The PostgreSQL connection is opened by `psycopg2.connect`
with the default `autocommit = False`, so every statement executed on the
cursor runs inside one transaction that becomes visible only at
`conn.commit()`; the embedding models the committed database state and the
transaction-local pending state accordingly.
-/

namespace AWSRAG

/-- Failure values corresponding to the exceptions the Python code can raise:
`ValueError` for an unsupported file suffix, parser failures during
extraction, Bedrock model failures, and psycopg2 storage failures. -/
inductive Err
  | unsupported (filename : String)
  | extractionFailed (msg : String)
  | modelFailure (msg : String)
  | storage (msg : String)
deriving DecidableEq, Repr

/-! ## Chunker

`processor.py` delegates splitting to langchain's
`RecursiveCharacterTextSplitter(chunk_size=1000, chunk_overlap=200,
separators=["\n\n", "\n", ". ", " ", ""])`, a third-party library whose code
is not part of this repository. -/

/-- Modelled from the spec: the final hard character split (the empty-string
separator), reached only when no larger separator boundary exists inside an
oversized text.  Pieces of at most `size` characters are emitted, stepping by
`size - overlap` so consecutive pieces share `overlap` characters.  The fuel
argument bounds the recursion by the text length. -/
def hardSplitGo (size step : Nat) : Nat → String → List String
  | 0, text => [text]
  | fuel + 1, text =>
    if text.length ≤ size then [text]
    else text.take size :: hardSplitGo size step fuel (text.drop step)

/-- Modelled from the spec: entry point of the hard character split. -/
def hardSplit (size overlap : Nat) (text : String) : List String :=
  hardSplitGo size (size - overlap) text.length text

/-- Modelled from the spec: recursive splitting on the largest available
separator boundary first (paragraph break, line break, sentence-ending
period+space, single space, then hard character split).  Empty text yields
no chunks; text within the size budget yields itself as a single chunk;
otherwise the text is split on the first separator actually present and each
piece is split further with the remaining separators. -/
def chunkWith (size overlap : Nat) : List String → String → List String
  | [], text =>
    if text = "" then []
    else if text.length ≤ size then [text]
    else hardSplit size overlap text
  | sep :: rest, text =>
    if text = "" then []
    else if text.length ≤ size then [text]
    else
      let pieces := text.splitOn sep
      if pieces.length ≤ 1 then chunkWith size overlap rest text
      else pieces.flatMap fun p => chunkWith size overlap rest p

/-- Modelled from the spec: `chunk_text` from `processor.py`, which calls the
splitter with size 1000, overlap 200 and the separator priority list
`["\n\n", "\n", ". ", " ", ""]` (the trailing empty separator is the hard
character split, the base case of `chunkWith`). -/
def chunk_text (text : String) (chunk_size : Nat := 1000) (chunk_overlap : Nat := 200) :
    List String :=
  chunkWith chunk_size chunk_overlap ["\n\n", "\n", ". ", " "] text

/-! ## Processor: data model -/

/-- One row of the `embeddings` table, with the columns in the order of the
`INSERT INTO embeddings (chunk_text, embedding, filename, chunk_index,
file_hash)` statement.  `E` is the (model-defined) embedding vector type. -/
structure EmbRow (E : Type) where
  chunk_text : String
  embedding : E
  filename : String
  chunk_index : Nat
  file_hash : String
deriving DecidableEq, Repr

/-- One row of the `processed_files` table (`filename` is the primary key). -/
structure PFRow where
  filename : String
  file_hash : String
  chunk_count : Nat
deriving DecidableEq, Repr

/-- The committed database state visible to readers. -/
structure DB (E : Type) where
  processed_files : List PFRow
  embeddings : List (EmbRow E)
deriving DecidableEq, Repr

/-- `SELECT file_hash FROM processed_files WHERE filename = %s` followed by
`fetchone()`: the hash of the first row matching the key, if any. -/
def lookupHash (db : DB E) (key : String) : Option String :=
  (db.processed_files.find? fun r => r.filename == key).map fun r => r.file_hash

/-- The SQL statements the processor handler sends over its cursor, plus the
final `conn.commit()`. -/
inductive DBOp (E : Type)
  | selectHash (filename : String)
  | deleteEmb (filename : String)
  | insertEmb (rows : List (EmbRow E))
  | upsertProcessed (filename file_hash : String) (chunk_count : Nat)
  | commit
deriving DecidableEq, Repr

/-- `INSERT INTO processed_files ... ON CONFLICT (filename) DO UPDATE SET
file_hash, processed_at, chunk_count`: replace the row for the key if one
exists (filename is unique), otherwise append a new row. -/
def upsertPF (key file_hash : String) (chunk_count : Nat) : List PFRow → List PFRow
  | [] => [⟨key, file_hash, chunk_count⟩]
  | r :: rs =>
    if r.filename == key then ⟨key, file_hash, chunk_count⟩ :: rs
    else r :: upsertPF key file_hash chunk_count rs

/-- Effect of each statement on a database state (reads and `commit` do not
change the data; `commit` changes only visibility, handled by the handler). -/
def applyOp (db : DB E) : DBOp E → DB E
  | .selectHash _ => db
  | .deleteEmb f => { db with embeddings := db.embeddings.filter fun r => r.filename != f }
  | .insertEmb rows => { db with embeddings := db.embeddings ++ rows }
  | .upsertProcessed f h c => { db with processed_files := upsertPF f h c db.processed_files }
  | .commit => db

/-! ## Processor: extraction -/

/-- The external parsers used by extraction: PyPDF2, python-docx, and UTF-8
decoding of raw bytes.  `B` is the type of raw byte content. -/
structure Extractors (B : Type) where
  extract_pdf : B → Except Err String
  extract_docx : B → Except Err String
  decode_utf8 : B → Except Err String

/-- `str.endswith` on character lists: the last `t.length` characters of `s`
equal `t`. -/
def listEndsWith (s t : List Char) : Bool := t == s.drop (s.length - t.length)

/-- `str.endswith` for strings. -/
def strEndsWith (s t : String) : Bool := listEndsWith s.data t.data

/-- `str.lower`: lower-case every character. -/
def strToLower (s : String) : String := ⟨s.data.map Char.toLower⟩

/-- `extract_text` from `processor.py`: dispatch on the lower-cased filename
suffix; `.pdf`, `.docx` and `.txt` go to their handlers, anything else raises
`ValueError("Unsupported file type: ...")`. -/
def extract_text (ex : Extractors B) (file_obj : B) (filename : String) : Except Err String :=
  let file_lower := strToLower filename
  if strEndsWith file_lower ".pdf" then ex.extract_pdf file_obj
  else if strEndsWith file_lower ".docx" then ex.extract_docx file_obj
  else if strEndsWith file_lower ".txt" then ex.decode_utf8 file_obj
  else .error (.unsupported filename)

/-! ## Processor: handler -/

/-- The embedding loop `for i, chunk in enumerate(chunks): get_embedding(chunk)`:
chunks are embedded synchronously in order; the first failure aborts the
handler.  Returns the list of texts actually sent to the embedding model
together with the overall result. -/
def embedAll (embed : String → Except Err E) :
    List String → List String × Except Err (List E)
  | [] => ([], .ok [])
  | c :: cs =>
    match embed c with
    | .error e => ([c], .error e)
    | .ok v =>
      match embedAll embed cs with
      | (calls, .error e) => (c :: calls, .error e)
      | (calls, .ok vs) => (c :: calls, .ok (v :: vs))

/-- The tuples appended to `embeddings_data`: `(chunk, embedding, key, i,
file_hash)` for `i` counting up from the given start index. -/
def buildRows (key file_hash : String) : List String → List E → Nat → List (EmbRow E)
  | c :: cs, v :: vs, i => ⟨c, v, key, i, file_hash⟩ :: buildRows key file_hash cs vs (i + 1)
  | _, _, _ => []

/-- Execute a sequence of statements on the transaction-local state: each
statement may fail (per the `dbFail` availability oracle); a failure aborts
with the statements attempted so far, success yields the final pending
state.  Nothing here touches the committed state. -/
def runWrites (dbFail : DBOp E → Option Err) (pending : DB E) :
    List (DBOp E) → List (DBOp E) × Except Err (DB E)
  | [] => ([], .ok pending)
  | op :: ops =>
    match dbFail op with
    | some e => ([op], .error e)
    | none =>
      match runWrites dbFail (applyOp pending op) ops with
      | (done, r) => (op :: done, r)

/-- Body of a processor response: `json.dumps('File already processed')` for
the short-circuit, or the success object with filename and chunk count. -/
inductive ProcBody
  | msg (s : String)
  | processed (filename : String) (chunks : Nat)
deriving DecidableEq, Repr

/-- A processor Lambda response. -/
structure ProcResponse where
  statusCode : Nat
  body : ProcBody
deriving DecidableEq, Repr

instance instDecEqExcept [DecidableEq ε] [DecidableEq α] : DecidableEq (Except ε α) := fun a b =>
  match a, b with
  | .error e, .error f =>
    if h : e = f then isTrue (congrArg Except.error h)
    else isFalse fun hh => h (Except.error.inj hh)
  | .ok x, .ok y =>
    if h : x = y then isTrue (congrArg Except.ok h)
    else isFalse fun hh => h (Except.ok.inj hh)
  | .error _, .ok _ => isFalse fun hh => Except.noConfusion hh
  | .ok _, .error _ => isFalse fun hh => Except.noConfusion hh

/-- Observable outcome of one invocation of the processor handler:
the returned value (or the exception re-raised by the `except` block), the
committed database state after the call, the write statements sent inside
the transaction, whether `conn.commit()` ran, every statement sent to the
database (reads included), the texts sent to the embedding model, and
whether `extract_text` was entered. -/
structure Outcome (E : Type) where
  result : Except Err ProcResponse
  db : DB E
  writes : List (DBOp E)
  committed : Bool
  storage_calls : List (DBOp E)
  embed_calls : List String
  extract_called : Bool
deriving DecidableEq, Repr

/-- `lambda_handler` from `processor.py`.  `md5` is the content-hash function
(`hashlib.md5(...).hexdigest()`), `ex` the external parsers, `embed` the
Bedrock embedding call, `dbFail` per-statement database availability, `db`
the committed database state at invocation, `key` the S3 object key and
`file_bytes` the object content.  The Python handler computes the hash,
checks `processed_files` and short-circuits on a hash match; otherwise it
extracts, chunks, embeds every chunk, then issues DELETE, batch INSERT and
upsert on one connection and commits.  Any raised exception propagates and
the transaction is never committed, so the committed state is unchanged on
every failure path. -/
def lambda_handler (md5 : B → String) (ex : Extractors B) (embed : String → Except Err E)
    (dbFail : DBOp E → Option Err) (db : DB E) (key : String) (file_bytes : B) : Outcome E :=
  let file_hash := md5 file_bytes
  match dbFail (.selectHash key) with
  | some e => ⟨.error e, db, [], false, [.selectHash key], [], false⟩
  | none =>
    if lookupHash db key = some file_hash then
      ⟨.ok ⟨200, .msg "File already processed"⟩, db, [], false, [.selectHash key], [], false⟩
    else
      match extract_text ex file_bytes key with
      | .error e => ⟨.error e, db, [], false, [.selectHash key], [], true⟩
      | .ok text =>
        let chunks := chunk_text text
        match embedAll embed chunks with
        | (calls, .error e) => ⟨.error e, db, [], false, [.selectHash key], calls, true⟩
        | (calls, .ok embs) =>
          let rows := buildRows key file_hash chunks embs 0
          let ops : List (DBOp E) :=
            [.deleteEmb key, .insertEmb rows, .upsertProcessed key file_hash chunks.length]
          match runWrites dbFail db ops with
          | (done, .error e) =>
            ⟨.error e, db, done, false, .selectHash key :: done, calls, true⟩
          | (done, .ok pending) =>
            match dbFail .commit with
            | some e =>
              ⟨.error e, db, done, false, .selectHash key :: done ++ [DBOp.commit], calls, true⟩
            | none =>
              ⟨.ok ⟨200, .processed key chunks.length⟩, pending, done, true,
                .selectHash key :: done ++ [DBOp.commit], calls, true⟩

/-! ## Query: similarity search

`similarity_search` in `query.py` runs
`SELECT chunk_text, filename, chunk_index, 1 - (embedding <=> q) as similarity
 FROM embeddings ORDER BY embedding <=> q LIMIT top_k`.
The pgvector cosine-distance operator `<=>` is external storage-engine
behaviour, modelled as a distance function parameter `dist`.  PostgreSQL
rejects a negative LIMIT with an error and treats `LIMIT 0` as returning no
rows. -/

/-- A row of the `embeddings` table as seen by the query, with its stored
embedding vector. -/
structure SearchRow (E : Type) where
  chunk_text : String
  filename : String
  chunk_index : Nat
  embedding : E
deriving DecidableEq, Repr

/-- A row returned by `similarity_search` (a `RealDictCursor` dict with keys
`chunk_text`, `filename`, `chunk_index`, `similarity`). -/
structure SearchResult where
  chunk_text : String
  filename : String
  chunk_index : Nat
  similarity : ℚ
deriving DecidableEq, Repr

/-- The `SELECT` list applied to one row: the reported similarity is
`1 - (embedding <=> query)`. -/
def toResult (dist : E → E → ℚ) (q : E) (r : SearchRow E) : SearchResult :=
  ⟨r.chunk_text, r.filename, r.chunk_index, 1 - dist r.embedding q⟩

/-- `ORDER BY embedding <=> q`: the table rows sorted by ascending distance
to the query embedding. -/
def rankRows (dist : E → E → ℚ) (table : List (SearchRow E)) (q : E) : List (SearchRow E) :=
  List.insertionSort (fun a b => dist a.embedding q ≤ dist b.embedding q) table

/-- `similarity_search` from `query.py`: order by ascending cosine distance,
apply `LIMIT top_k`, and report `1 - distance` as the similarity of each
returned row.  A negative LIMIT is a PostgreSQL error. -/
def similarity_search (dist : E → E → ℚ) (table : List (SearchRow E)) (query_embedding : E)
    (top_k : Int) : Except String (List SearchResult) :=
  if top_k < 0 then .error "LIMIT must not be negative"
  else .ok (((rankRows dist table query_embedding).take top_k.toNat).map
    (toResult dist query_embedding))

/-! ## Query: handler -/

/-- The parsed JSON request body: the `question` and `top_k` fields, each
possibly absent. -/
structure QueryBody where
  question : Option String
  top_k : Option Int
deriving DecidableEq, Repr

/-- The shapes an incoming event can take in
`body = json.loads(event['body']) if isinstance(event['body'], str) else event['body']
 if 'body' in event else event`:
no `body` key (the event itself is the request), a `body` key holding an
object, or a `body` key holding a JSON string. -/
inductive QEvent
  | bare (b : QueryBody)
  | withBody (b : QueryBody)
  | withBodyStr (s : String)
deriving DecidableEq, Repr

/-- One entry of the `sources` array of a successful response. -/
structure SourceEntry where
  filename : String
  chunk_index : Nat
  similarity : ℚ
deriving DecidableEq, Repr

/-- Body of a query response: the success object or an error object. -/
inductive QBody
  | success (question answer : String) (sources : List SourceEntry)
  | err (msg : String)
deriving DecidableEq, Repr

/-- A query Lambda response. -/
structure QResponse where
  statusCode : Nat
  body : QBody
deriving DecidableEq, Repr

/-- Observable outcome of one invocation of the query handler: the response,
the texts sent to the embedding model, whether the generation model was
called, and the LIMIT value passed to the similarity search (if reached). -/
structure QOutcome where
  resp : QResponse
  embed_calls : List String
  claude_called : Bool
  used_top_k : Option Int
deriving DecidableEq, Repr

/-- Request-body resolution at the top of the query handler: the event
itself when there is no `body` key, the object directly, or `json.loads` of
the string (`decode`), whose failure raises and is caught by the handler's
`except` block. -/
def parse_event (decode : String → Except String QueryBody) :
    QEvent → Except String QueryBody
  | .bare b => .ok b
  | .withBody b => .ok b
  | .withBodyStr s => decode s

/-- `lambda_handler` from `query.py`.  `decode` is `json.loads` on a string
body, `embed` the Bedrock embedding call, `dist`/`table` the stored rows and
the cosine-distance operator, `search_fail` a possible database failure of
`similarity_search`, `claude` the generation call.  The Python handler parses
the body, returns 400 when `question` is falsy (missing or empty), embeds
the question with `top_k = body.get('top_k', 5)`, searches, asks the model,
and returns 200 with sources; any exception yields 500 with the message. -/
def query_lambda_handler (decode : String → Except String QueryBody)
    (embed : String → Except String E) (dist : E → E → ℚ) (table : List (SearchRow E))
    (search_fail : Option String)
    (claude : String → List SearchResult → Except String String) (ev : QEvent) : QOutcome :=
  match parse_event decode ev with
  | .error m => ⟨⟨500, .err m⟩, [], false, none⟩
  | .ok b =>
    match b.question with
    | none => ⟨⟨400, .err "Missing required field: question"⟩, [], false, none⟩
    | some q =>
      if q = "" then ⟨⟨400, .err "Missing required field: question"⟩, [], false, none⟩
      else
        let k := b.top_k.getD 5
        match embed q with
        | .error m => ⟨⟨500, .err m⟩, [q], false, none⟩
        | .ok vec =>
          match search_fail with
          | some m => ⟨⟨500, .err m⟩, [q], false, some k⟩
          | none =>
            match similarity_search dist table vec k with
            | .error m => ⟨⟨500, .err m⟩, [q], false, some k⟩
            | .ok results =>
              match claude q results with
              | .error m => ⟨⟨500, .err m⟩, [q], true, some k⟩
              | .ok answer =>
                ⟨⟨200, .success q answer
                    (results.map fun r => ⟨r.filename, r.chunk_index, r.similarity⟩)⟩,
                  [q], true, some k⟩

/-! ## Helper lemmas -/

theorem embedAll_ok_length (embed : String → Except Err E) :
    ∀ (cs calls : List String) (vs : List E),
      embedAll embed cs = (calls, .ok vs) → vs.length = cs.length := by
  intro cs
  induction cs with
  | nil =>
    intro calls vs h
    simp only [embedAll, Prod.mk.injEq] at h
    cases h.2
    rfl
  | cons c cs ih =>
    intro calls vs h
    simp only [embedAll] at h
    cases he : embed c with
    | error e => rw [he] at h; simp at h
    | ok v =>
      rw [he] at h
      cases har : embedAll embed cs with
      | mk calls' r =>
        rw [har] at h
        cases r with
        | error e => simp at h
        | ok vs' =>
          simp only [Prod.mk.injEq, Except.ok.injEq] at h
          cases h.2
          simp [ih calls' vs' (by rw [har])]

theorem buildRows_length (key fh : String) :
    ∀ (cs : List String) (vs : List E) (i : Nat), vs.length = cs.length →
      (buildRows key fh cs vs i).length = cs.length := by
  intro cs
  induction cs with
  | nil => intro vs i _; cases vs <;> simp [buildRows]
  | cons c cs ih =>
    intro vs i h
    cases vs with
    | nil => simp at h
    | cons v vs => simp [buildRows, ih vs (i + 1) (by simpa using h)]

theorem buildRows_map_index (key fh : String) :
    ∀ (cs : List String) (vs : List E) (i : Nat), vs.length = cs.length →
      (buildRows key fh cs vs i).map (fun r => r.chunk_index) = List.range' i cs.length := by
  intro cs
  induction cs with
  | nil => intro vs i _; cases vs <;> simp [buildRows]
  | cons c cs ih =>
    intro vs i h
    cases vs with
    | nil => simp at h
    | cons v vs => simp [buildRows, List.range', ih vs (i + 1) (by simpa using h)]

theorem buildRows_map_text (key fh : String) :
    ∀ (cs : List String) (vs : List E) (i : Nat), vs.length = cs.length →
      (buildRows key fh cs vs i).map (fun r => r.chunk_text) = cs := by
  intro cs
  induction cs with
  | nil => intro vs i _; cases vs <;> simp [buildRows]
  | cons c cs ih =>
    intro vs i h
    cases vs with
    | nil => simp at h
    | cons v vs => simp [buildRows, ih vs (i + 1) (by simpa using h)]

theorem buildRows_filename (key fh : String) :
    ∀ (cs : List String) (vs : List E) (i : Nat) (r : EmbRow E),
      r ∈ buildRows key fh cs vs i → r.filename = key := by
  intro cs
  induction cs with
  | nil => intro vs i r h; cases vs <;> simp [buildRows] at h
  | cons c cs ih =>
    intro vs i r h
    cases vs with
    | nil => simp [buildRows] at h
    | cons v vs =>
      simp only [buildRows, List.mem_cons] at h
      cases h with
      | inl h => rw [h]
      | inr h => exact ih vs (i + 1) r h

theorem runWrites_ok (dbFail : DBOp E → Option Err) :
    ∀ (ops : List (DBOp E)) (db : DB E) (done : List (DBOp E)) (pending : DB E),
      runWrites dbFail db ops = (done, .ok pending) → pending = ops.foldl applyOp db := by
  intro ops
  induction ops with
  | nil =>
    intro db done pending h
    simp only [runWrites, Prod.mk.injEq] at h
    cases h.2
    rfl
  | cons op ops ih =>
    intro db done pending h
    simp only [runWrites] at h
    cases hf : dbFail op with
    | some e => rw [hf] at h; simp at h
    | none =>
      rw [hf] at h
      cases hr : runWrites dbFail (applyOp db op) ops with
      | mk done' r =>
        rw [hr] at h
        simp only [Prod.mk.injEq] at h
        cases h.2
        exact ih (applyOp db op) done' pending (by rw [hr])

theorem find?_upsertPF (key fh : String) (c : Nat) :
    ∀ pfs : List PFRow,
      (upsertPF key fh c pfs).find? (fun r => r.filename == key) = some ⟨key, fh, c⟩ := by
  intro pfs
  induction pfs with
  | nil => simp [upsertPF, List.find?]
  | cons r rs ih =>
    by_cases h : r.filename == key
    · simp [upsertPF, h, List.find?]
    · simp only [upsertPF, h, if_false, Bool.false_eq_true]
      rw [List.find?_cons_of_neg _ (by simpa using h)]
      exact ih

theorem runWrites_all_none (dbFail : DBOp E → Option Err) (hdb : ∀ op, dbFail op = none) :
    ∀ (ops : List (DBOp E)) (db : DB E),
      runWrites dbFail db ops = (ops, .ok (ops.foldl applyOp db)) := by
  intro ops
  induction ops with
  | nil => intro db; rfl
  | cons op ops ih => intro db; simp [runWrites, hdb op, ih (applyOp db op), List.foldl]

theorem filter_bne_then_beq (key : String) :
    ∀ l : List (EmbRow E),
      (l.filter fun r => r.filename != key).filter (fun r => r.filename == key) = [] := by
  intro l
  induction l with
  | nil => rfl
  | cons r rs ih =>
    by_cases h : r.filename == key
    · simp [List.filter_cons, bne, h, ih]
    · simp [List.filter_cons, bne, h, ih]

/-! ## Claims -/

/-- C1: ingesting a document whose stored hash for its key equals the MD5
hash of the uploaded bytes short-circuits: the handler performs no store
mutation (zero writes), never enters extraction, sends nothing to the
embedding model, leaves the committed database unchanged, and returns status
200 with the "File already processed" message. -/
theorem ingest_short_circuit (md5 : B → String) (ex : Extractors B)
    (embed : String → Except Err E) (dbFail : DBOp E → Option Err) (db : DB E)
    (key : String) (file_bytes : B)
    (hsel : dbFail (.selectHash key) = none)
    (hhash : lookupHash db key = some (md5 file_bytes)) :
    lambda_handler md5 ex embed dbFail db key file_bytes =
      ⟨.ok ⟨200, .msg "File already processed"⟩, db, [], false,
        [.selectHash key], [], false⟩ := by
  simp [lambda_handler, hsel, hhash]

/-- Witness for C1: a concrete run on a database already holding the hash of
the uploaded bytes. -/
theorem ingest_short_circuit_witness :
    lambda_handler (fun _ : Unit => "h")
      ⟨fun _ => .ok "", fun _ => .ok "", fun _ => .ok "hello"⟩
      (fun _ => .ok (0 : Nat)) (fun _ => none) ⟨[⟨"a.txt", "h", 1⟩], []⟩ "a.txt" () =
      ⟨.ok ⟨200, .msg "File already processed"⟩, ⟨[⟨"a.txt", "h", 1⟩], []⟩, [], false,
        [.selectHash "a.txt"], [], false⟩ :=
  ingest_short_circuit _ _ _ _ _ _ _ rfl (by decide)

/-- C6: the Chunker yields no chunks on empty text, and exactly one chunk,
equal to the input, on any non-empty text shorter than the size parameter. -/
theorem chunker_degenerate (s : String) (h1 : s ≠ "") (h2 : s.length < 1000) :
    chunk_text "" = [] ∧ chunk_text s = [s] := by
  refine ⟨rfl, ?_⟩
  simp [chunk_text, chunkWith, h1, Nat.le_of_lt h2]

/-- Witness for C6: a 10-character input. -/
theorem chunker_degenerate_witness :
    ("0123456789" : String) ≠ "" ∧ ("0123456789" : String).length < 1000 ∧
      chunk_text "" = [] ∧ chunk_text "0123456789" = ["0123456789"] :=
  ⟨by decide, by decide, chunker_degenerate "0123456789" (by decide) (by decide)⟩

/-- C9: a question field holding the empty string (the falsy string value)
is treated exactly like a missing question: identical outcome, status 400,
and neither the embedding nor the generation collaborator is invoked. -/
theorem query_empty_question (decode : String → Except String QueryBody)
    (embed : String → Except String E) (dist : E → E → ℚ) (table : List (SearchRow E))
    (search_fail : Option String)
    (claude : String → List SearchResult → Except String String) (t : Option Int) :
    query_lambda_handler decode embed dist table search_fail claude (.bare ⟨some "", t⟩) =
        query_lambda_handler decode embed dist table search_fail claude (.bare ⟨none, t⟩) ∧
      query_lambda_handler decode embed dist table search_fail claude (.bare ⟨some "", t⟩) =
        ⟨⟨400, .err "Missing required field: question"⟩, [], false, none⟩ :=
  ⟨rfl, rfl⟩

/-- C10: an event with no `body` key, an event whose `body` is an object, and
an event whose `body` is a JSON string all yield the same behaviour once they
denote the same request body. -/
theorem query_body_shapes (decode : String → Except String QueryBody)
    (embed : String → Except String E) (dist : E → E → ℚ) (table : List (SearchRow E))
    (search_fail : Option String)
    (claude : String → List SearchResult → Except String String)
    (b : QueryBody) (s : String) (h : decode s = .ok b) :
    query_lambda_handler decode embed dist table search_fail claude (.withBody b) =
        query_lambda_handler decode embed dist table search_fail claude (.bare b) ∧
      query_lambda_handler decode embed dist table search_fail claude (.withBodyStr s) =
        query_lambda_handler decode embed dist table search_fail claude (.bare b) := by
  refine ⟨rfl, ?_⟩
  simp only [query_lambda_handler, parse_event, h]

/-- Witness for C10: a concrete decoder on which the string-body shape
agrees with the other two shapes. -/
theorem query_body_shapes_witness :
    query_lambda_handler (E := ℚ)
        (fun s => if s = "ok" then .ok ⟨some "q", none⟩ else .error "bad")
        (fun _ => .ok 0) (fun a b => a - b) [] none (fun _ _ => .ok "ans")
        (.withBody ⟨some "q", none⟩) =
      query_lambda_handler
        (fun s => if s = "ok" then .ok ⟨some "q", none⟩ else .error "bad")
        (fun _ => .ok 0) (fun a b => a - b) [] none (fun _ _ => .ok "ans")
        (.bare ⟨some "q", none⟩) ∧
      query_lambda_handler
        (fun s => if s = "ok" then .ok ⟨some "q", none⟩ else .error "bad")
        (fun _ => .ok 0) (fun a b => a - b) [] none (fun _ _ => .ok "ans")
        (.withBodyStr "ok") =
      query_lambda_handler
        (fun s => if s = "ok" then .ok ⟨some "q", none⟩ else .error "bad")
        (fun _ => .ok 0) (fun a b => a - b) [] none (fun _ _ => .ok "ans")
        (.bare ⟨some "q", none⟩) :=
  query_body_shapes _ _ _ _ _ _ _ "ok" (by decide)

/-- C8: a request without a question is answered 400 with the error payload
and no collaborator is invoked; every response carries status 200, 400, or
500, and a 500 always carries an error message (never a silent empty
answer). -/
theorem query_error_responses (decode : String → Except String QueryBody)
    (embed : String → Except String E) (dist : E → E → ℚ) (table : List (SearchRow E))
    (search_fail : Option String)
    (claude : String → List SearchResult → Except String String) (ev : QEvent) :
    (∀ b : QueryBody, parse_event decode ev = .ok b → b.question = none →
        query_lambda_handler decode embed dist table search_fail claude ev =
          ⟨⟨400, .err "Missing required field: question"⟩, [], false, none⟩) ∧
      ((query_lambda_handler decode embed dist table search_fail claude ev).resp.statusCode
          = 200 ∨
        (query_lambda_handler decode embed dist table search_fail claude ev).resp.statusCode
          = 400 ∨
        ((query_lambda_handler decode embed dist table search_fail claude ev).resp.statusCode
            = 500 ∧
          ∃ m, (query_lambda_handler decode embed dist table search_fail claude ev).resp.body
            = .err m)) := by
  cases hp : parse_event decode ev with
  | error m =>
    refine ⟨fun b hb => by simp at hb, ?_⟩
    simp [query_lambda_handler, hp]
  | ok b =>
    cases hq : b.question with
    | none =>
      refine ⟨fun b' hb' _ => by simp [query_lambda_handler, hp, hq], ?_⟩
      simp [query_lambda_handler, hp, hq]
    | some q =>
      refine ⟨fun b' hb' hq' => ?_, ?_⟩
      · simp only [Except.ok.injEq] at hb'
        subst hb'
        simp [hq] at hq'
      · by_cases hqe : q = ""
        · simp [query_lambda_handler, hp, hq, hqe]
        · cases he : embed q with
          | error m => simp [query_lambda_handler, hp, hq, hqe, he]
          | ok vec =>
            cases hsf : search_fail with
            | some m => simp [query_lambda_handler, hp, hq, hqe, he, hsf]
            | none =>
              cases hs : similarity_search dist table vec (b.top_k.getD 5) with
              | error m => simp [query_lambda_handler, hp, hq, hqe, he, hsf, hs]
              | ok results =>
                cases hc : claude q results with
                | error m => simp [query_lambda_handler, hp, hq, hqe, he, hsf, hs, hc]
                | ok answer => simp [query_lambda_handler, hp, hq, hqe, he, hsf, hs, hc]

/-- Witness for C8: a concrete request with no question field. -/
theorem query_error_responses_witness :
    query_lambda_handler (E := ℚ) (fun _ => .error "bad") (fun _ => .ok 0)
        (fun a b => a - b) [] none (fun _ _ => .ok "ans") (.bare ⟨none, none⟩) =
      ⟨⟨400, .err "Missing required field: question"⟩, [], false, none⟩ :=
  (query_error_responses _ _ _ _ _ _ _).1 ⟨none, none⟩ rfl rfl

/-- C7 counterexample: a request supplying `top_k = 0` is not served with the
default of 5: the handler passes 0 through to the search LIMIT, so on a
one-row table the response contains no sources, whereas the same request
with `top_k = 5` returns the row. -/
theorem query_top_k_zero_counterexample :
    (query_lambda_handler (fun _ => .error "bad") (fun _ => .ok (0 : ℚ))
        (fun a b => a - b) [⟨"Paris", "doc1", 0, 0⟩] none (fun _ _ => .ok "ans")
        (.bare ⟨some "q", some 0⟩)).used_top_k = some 0 ∧
      (query_lambda_handler (fun _ => .error "bad") (fun _ => .ok (0 : ℚ))
        (fun a b => a - b) [⟨"Paris", "doc1", 0, 0⟩] none (fun _ _ => .ok "ans")
        (.bare ⟨some "q", some 0⟩)).resp = ⟨200, .success "q" "ans" []⟩ ∧
      ∃ e : SourceEntry,
        (query_lambda_handler (fun _ => .error "bad") (fun _ => .ok (0 : ℚ))
          (fun a b => a - b) [⟨"Paris", "doc1", 0, 0⟩] none (fun _ _ => .ok "ans")
          (.bare ⟨some "q", some 5⟩)).resp =
          ⟨200, .success "q" "ans" [e]⟩ :=
  ⟨by decide, by decide, ⟨"doc1", 0, 1 - ((0 : ℚ) - 0)⟩, rfl⟩

/-- C7 amended: a missing top_k defaults to 5; a top_k that is present —
including zero or a negative value — is passed through unchanged to the
search LIMIT; no upper bound is enforced by the handler. -/
theorem query_top_k_passthrough (decode : String → Except String QueryBody)
    (embed : String → Except String E) (dist : E → E → ℚ) (table : List (SearchRow E))
    (search_fail : Option String)
    (claude : String → List SearchResult → Except String String)
    (b : QueryBody) (q : String) (v : E)
    (hq : b.question = some q) (hq' : q ≠ "") (he : embed q = .ok v) :
    (query_lambda_handler decode embed dist table search_fail claude
        (.bare b)).used_top_k = some (b.top_k.getD 5) := by
  simp only [query_lambda_handler, parse_event, he, hq, if_neg hq']
  cases search_fail with
  | some m => rfl
  | none =>
    cases hs : similarity_search dist table v (b.top_k.getD 5) with
    | error m => simp [hs]
    | ok results =>
      simp only [hs]
      cases hc : claude q results with
      | error m => simp [hc]
      | ok answer => simp [hc]

/-- Witness for C7: a request with top_k absent is served with LIMIT 5. -/
theorem query_top_k_passthrough_witness :
    (query_lambda_handler (E := ℚ) (fun _ => .error "bad") (fun _ => .ok 0)
        (fun a b => a - b) [] none (fun _ _ => .ok "ans")
        (.bare ⟨some "q", none⟩)).used_top_k = some 5 :=
  query_top_k_passthrough _ _ _ _ _ _ ⟨some "q", none⟩ "q" 0 rfl (by decide) rfl

/-- C4: for a non-negative LIMIT, the similarity-search results are table
rows ordered by ascending cosine distance to the query embedding, each
reported similarity is one minus that row's distance (so most-similar
first), and at most top_k rows are returned. -/
theorem retrieval_ranked (dist : E → E → ℚ) (table : List (SearchRow E)) (q : E)
    (k : Int) (hk : 0 ≤ k) :
    ∃ rows : List (SearchRow E),
      similarity_search dist table q k = .ok (rows.map (toResult dist q)) ∧
      List.Pairwise (fun a b => dist a.embedding q ≤ dist b.embedding q) rows ∧
      (rows.length : Int) ≤ k ∧ ∀ r ∈ rows, r ∈ table := by
  haveI : IsTrans (SearchRow E) fun a b => dist a.embedding q ≤ dist b.embedding q :=
    ⟨fun _ _ _ hab hbc => le_trans hab hbc⟩
  haveI : IsTotal (SearchRow E) fun a b => dist a.embedding q ≤ dist b.embedding q :=
    ⟨fun _ _ => le_total _ _⟩
  refine ⟨(rankRows dist table q).take k.toNat, ?_, ?_, ?_, ?_⟩
  · simp [similarity_search, not_lt.mpr hk]
  · exact List.Pairwise.sublist (List.take_sublist _ _)
      (List.sorted_insertionSort _ table)
  · have h1 : ((rankRows dist table q).take k.toNat).length ≤ k.toNat := by
      simp [List.length_take]
    calc (((rankRows dist table q).take k.toNat).length : Int)
        ≤ (k.toNat : Int) := by exact_mod_cast h1
      _ = k := Int.toNat_of_nonneg hk
  · intro r hr
    exact (List.perm_insertionSort _ table).mem_iff.1
      (List.take_subset k.toNat (rankRows dist table q) hr)

/-- Witness for C4: a one-row table queried at distance zero with LIMIT 1. -/
theorem retrieval_ranked_witness :
    (0 : Int) ≤ 1 ∧
      ∃ rows : List (SearchRow ℚ),
        similarity_search (fun a b => a - b)
            [⟨"Paris is the capital of France.", "doc1", 0, 0⟩] 0 1 =
          .ok (rows.map (toResult (fun a b => a - b) 0)) ∧
        List.Pairwise (fun a b => (a.embedding - 0 : ℚ) ≤ b.embedding - 0) rows ∧
        (rows.length : Int) ≤ 1 ∧
        ∀ r ∈ rows, r ∈ [(⟨"Paris is the capital of France.", "doc1", 0, 0⟩ : SearchRow ℚ)] :=
  ⟨by decide, retrieval_ranked (fun a b => a - b)
    [⟨"Paris is the capital of France.", "doc1", 0, 0⟩] 0 1 (by decide)⟩

/-- C5 counterexample: on `report.xlsx` the handler does fail with the
unsupported-format error and makes no embedding call and no write, but a
storage call — the hash-check SELECT — has already been issued when the
failure happens, so the claim that the failure precedes any storage call is
false on the code. -/
theorem unsupported_storage_read_counterexample :
    (lambda_handler (fun _ : Unit => "h")
        ⟨fun _ => .ok "", fun _ => .ok "", fun _ => .ok "hello"⟩
        (fun _ => .ok (0 : Nat)) (fun _ => none) ⟨[], []⟩ "report.xlsx" ()).result =
        .error (.unsupported "report.xlsx") ∧
      (lambda_handler (fun _ : Unit => "h")
        ⟨fun _ => .ok "", fun _ => .ok "", fun _ => .ok "hello"⟩
        (fun _ => .ok (0 : Nat)) (fun _ => none) ⟨[], []⟩ "report.xlsx" ()).storage_calls =
        [.selectHash "report.xlsx"] ∧
      (lambda_handler (fun _ : Unit => "h")
        ⟨fun _ => .ok "", fun _ => .ok "", fun _ => .ok "hello"⟩
        (fun _ => .ok (0 : Nat)) (fun _ => none) ⟨[], []⟩ "report.xlsx" ()).storage_calls ≠
        [] := by
  decide

/-- C5 amended: for every filename whose lower-cased suffix is none of
`.pdf`, `.docx`, `.txt`, extraction fails deterministically with the
unsupported-format error, and — whenever the hash check does not
short-circuit — the ingestion fails with that error before any embedding
call and before any storage write (zero writes), though after the hash-check
storage read. -/
theorem unsupported_rejected (md5 : B → String) (ex : Extractors B)
    (embed : String → Except Err E) (dbFail : DBOp E → Option Err) (db : DB E)
    (key : String) (file_bytes : B)
    (hpdf : strEndsWith (strToLower key) ".pdf" = false)
    (hdocx : strEndsWith (strToLower key) ".docx" = false)
    (htxt : strEndsWith (strToLower key) ".txt" = false)
    (hsel : dbFail (.selectHash key) = none)
    (hskip : lookupHash db key ≠ some (md5 file_bytes)) :
    extract_text ex file_bytes key = .error (.unsupported key) ∧
      lambda_handler md5 ex embed dbFail db key file_bytes =
        ⟨.error (.unsupported key), db, [], false, [.selectHash key], [], true⟩ := by
  have hext : extract_text ex file_bytes key = .error (.unsupported key) := by
    simp [extract_text, hpdf, hdocx, htxt]
  exact ⟨hext, by simp [lambda_handler, hsel, hskip, hext]⟩

/-- Witness for C5 amended: the `report.xlsx` case on an empty database. -/
theorem unsupported_rejected_witness :
    extract_text (B := Unit)
        ⟨fun _ => .ok "", fun _ => .ok "", fun _ => .ok "hello"⟩ () "report.xlsx" =
        .error (.unsupported "report.xlsx") ∧
      lambda_handler (fun _ : Unit => "h")
        ⟨fun _ => .ok "", fun _ => .ok "", fun _ => .ok "hello"⟩
        (fun _ => .ok (0 : Nat)) (fun _ => none) ⟨[], []⟩ "report.xlsx" () =
        ⟨.error (.unsupported "report.xlsx"), ⟨[], []⟩, [], false,
          [.selectHash "report.xlsx"], [], true⟩ :=
  unsupported_rejected (fun _ : Unit => "h")
    ⟨fun _ => .ok "", fun _ => .ok "", fun _ => .ok "hello"⟩
    (fun _ => .ok (0 : Nat)) (fun _ => none) ⟨[], []⟩ "report.xlsx" ()
    (by decide) (by decide) (by decide) rfl (by decide)

/-- C2: every ingestion failure before the final commit leaves the committed
database — the previously persisted chunks and metadata — fully intact, and
any change the committed database does undergo is the whole
delete + insert + upsert sequence applied as one unit for the key, so no
committed state pairs the new hash with old chunks or vice versa. -/
theorem ingest_atomic (md5 : B → String) (ex : Extractors B) (embed : String → Except Err E)
    (dbFail : DBOp E → Option Err) (db : DB E) (key : String) (file_bytes : B) :
    (∀ e, (lambda_handler md5 ex embed dbFail db key file_bytes).result = .error e →
        (lambda_handler md5 ex embed dbFail db key file_bytes).db = db) ∧
      ((lambda_handler md5 ex embed dbFail db key file_bytes).db = db ∨
        ∃ rows : List (EmbRow E),
          (lambda_handler md5 ex embed dbFail db key file_bytes).db =
            applyOp (applyOp (applyOp db (.deleteEmb key)) (.insertEmb rows))
              (.upsertProcessed key (md5 file_bytes) rows.length)) := by
  cases hsel : dbFail (.selectHash key) with
  | some e => simp [lambda_handler, hsel]
  | none =>
    by_cases hh : lookupHash db key = some (md5 file_bytes)
    · simp [lambda_handler, hsel, hh]
    · cases hext : extract_text ex file_bytes key with
      | error e => simp [lambda_handler, hsel, hh, hext]
      | ok text =>
        cases hemb : embedAll embed (chunk_text text) with
        | mk calls r =>
          cases r with
          | error e => simp [lambda_handler, hsel, hh, hext, hemb]
          | ok embs =>
            cases hw : runWrites dbFail db
                [.deleteEmb key,
                  .insertEmb (buildRows key (md5 file_bytes) (chunk_text text) embs 0),
                  .upsertProcessed key (md5 file_bytes) (chunk_text text).length] with
            | mk done r2 =>
              cases r2 with
              | error e => simp [lambda_handler, hsel, hh, hext, hemb, hw]
              | ok pending =>
                cases hc : dbFail .commit with
                | some e => simp [lambda_handler, hsel, hh, hext, hemb, hw, hc]
                | none =>
                  have hpend := runWrites_ok dbFail _ db done pending hw
                  have hlen : embs.length = (chunk_text text).length :=
                    embedAll_ok_length embed (chunk_text text) calls embs hemb
                  have hrows :
                      (buildRows key (md5 file_bytes) (chunk_text text) embs 0).length =
                        (chunk_text text).length :=
                    buildRows_length _ _ _ _ _ hlen
                  constructor
                  · intro e he
                    simp [lambda_handler, hsel, hh, hext, hemb, hw, hc] at he
                  · right
                    refine ⟨buildRows key (md5 file_bytes) (chunk_text text) embs 0, ?_⟩
                    simp [lambda_handler, hsel, hh, hext, hemb, hw, hc, hpend, hrows,
                      List.foldl]

/-- Witness for C2: a run whose hash-check SELECT fails leaves the committed
database unchanged. -/
theorem ingest_atomic_witness :
    (lambda_handler (fun _ : Unit => "h")
        ⟨fun _ => .ok "", fun _ => .ok "", fun _ => .ok "hello"⟩
        (fun _ => .ok (0 : Nat)) (fun _ => some (.storage "down"))
        ⟨[⟨"a.txt", "old", 1⟩], []⟩ "a.txt" ()).db = ⟨[⟨"a.txt", "old", 1⟩], []⟩ :=
  (ingest_atomic (fun _ : Unit => "h")
    ⟨fun _ => .ok "", fun _ => .ok "", fun _ => .ok "hello"⟩
    (fun _ => .ok (0 : Nat)) (fun _ => some (.storage "down"))
    ⟨[⟨"a.txt", "old", 1⟩], []⟩ "a.txt" ()).1 (.storage "down") rfl

/-- C3: after a successful non-short-circuited ingestion, the committed chunk
rows for the key are exactly the Chunker output in order — their indices form
the contiguous range `0..chunk_count-1`, with no gaps, duplicates or leftover
rows from a previous version — and the metadata row for the key records the
new hash with `chunk_count` equal to the number of chunks produced. -/
theorem ingest_chunk_indices (md5 : B → String) (ex : Extractors B)
    (embed : String → Except Err E) (dbFail : DBOp E → Option Err) (db : DB E)
    (key : String) (file_bytes : B) (text : String) (calls : List String) (embs : List E)
    (hdb : ∀ op, dbFail op = none)
    (hskip : lookupHash db key ≠ some (md5 file_bytes))
    (hext : extract_text ex file_bytes key = .ok text)
    (hemb : embedAll embed (chunk_text text) = (calls, .ok embs)) :
    ((lambda_handler md5 ex embed dbFail db key file_bytes).db.embeddings.filter
        (fun r => r.filename == key)).map (fun r => r.chunk_index) =
        List.range (chunk_text text).length ∧
      ((lambda_handler md5 ex embed dbFail db key file_bytes).db.embeddings.filter
        (fun r => r.filename == key)).map (fun r => r.chunk_text) = chunk_text text ∧
      (lambda_handler md5 ex embed dbFail db key file_bytes).db.processed_files.find?
        (fun r => r.filename == key) =
        some ⟨key, md5 file_bytes, (chunk_text text).length⟩ ∧
      (lambda_handler md5 ex embed dbFail db key file_bytes).result =
        .ok ⟨200, .processed key (chunk_text text).length⟩ := by
  have hlen : embs.length = (chunk_text text).length :=
    embedAll_ok_length embed (chunk_text text) calls embs hemb
  have ho : lambda_handler md5 ex embed dbFail db key file_bytes =
      ⟨.ok ⟨200, .processed key (chunk_text text).length⟩,
        ⟨upsertPF key (md5 file_bytes) (chunk_text text).length db.processed_files,
          (db.embeddings.filter fun r => r.filename != key) ++
            buildRows key (md5 file_bytes) (chunk_text text) embs 0⟩,
        [.deleteEmb key, .insertEmb (buildRows key (md5 file_bytes) (chunk_text text) embs 0),
          .upsertProcessed key (md5 file_bytes) (chunk_text text).length],
        true,
        .selectHash key ::
          [.deleteEmb key, .insertEmb (buildRows key (md5 file_bytes) (chunk_text text) embs 0),
            .upsertProcessed key (md5 file_bytes) (chunk_text text).length] ++ [DBOp.commit],
        calls, true⟩ := by
    simp [lambda_handler, hdb, hskip, hext, hemb, runWrites_all_none dbFail hdb, applyOp,
      List.foldl]
  have hall : ∀ r ∈ buildRows key (md5 file_bytes) (chunk_text text) embs 0,
      (fun r : EmbRow E => r.filename == key) r := by
    intro r hr
    simpa using buildRows_filename key (md5 file_bytes) (chunk_text text) embs 0 r hr
  have hfilter :
      ((lambda_handler md5 ex embed dbFail db key file_bytes).db.embeddings.filter
        (fun r => r.filename == key)) =
        buildRows key (md5 file_bytes) (chunk_text text) embs 0 := by
    rw [ho]
    simp only [List.filter_append, filter_bne_then_beq, List.nil_append]
    exact List.filter_eq_self.mpr hall
  refine ⟨?_, ?_, ?_, ?_⟩
  · rw [hfilter, List.range_eq_range']
    exact buildRows_map_index key (md5 file_bytes) (chunk_text text) embs 0 hlen
  · rw [hfilter]
    exact buildRows_map_text key (md5 file_bytes) (chunk_text text) embs 0 hlen
  · rw [ho]
    exact find?_upsertPF key (md5 file_bytes) (chunk_text text).length db.processed_files
  · rw [ho]

/-- Witness for C3: a full successful run of a `.txt` file on an empty
database ends with the single chunk stored at index 0 and chunk_count 1. -/
theorem ingest_chunk_indices_witness :
    ((lambda_handler (fun _ : Unit => "h")
        ⟨fun _ => .ok "", fun _ => .ok "", fun _ => .ok "hello"⟩
        (fun _ => .ok (0 : Nat)) (fun _ => none) ⟨[], []⟩ "a.txt"
        ()).db.embeddings.filter (fun r => r.filename == "a.txt")).map
        (fun r => r.chunk_index) = List.range (chunk_text "hello").length ∧
      ((lambda_handler (fun _ : Unit => "h")
        ⟨fun _ => .ok "", fun _ => .ok "", fun _ => .ok "hello"⟩
        (fun _ => .ok (0 : Nat)) (fun _ => none) ⟨[], []⟩ "a.txt"
        ()).db.embeddings.filter (fun r => r.filename == "a.txt")).map
        (fun r => r.chunk_text) = chunk_text "hello" ∧
      (lambda_handler (fun _ : Unit => "h")
        ⟨fun _ => .ok "", fun _ => .ok "", fun _ => .ok "hello"⟩
        (fun _ => .ok (0 : Nat)) (fun _ => none) ⟨[], []⟩ "a.txt"
        ()).db.processed_files.find? (fun r => r.filename == "a.txt") =
        some ⟨"a.txt", "h", (chunk_text "hello").length⟩ ∧
      (lambda_handler (fun _ : Unit => "h")
        ⟨fun _ => .ok "", fun _ => .ok "", fun _ => .ok "hello"⟩
        (fun _ => .ok (0 : Nat)) (fun _ => none) ⟨[], []⟩ "a.txt" ()).result =
        .ok ⟨200, .processed "a.txt" (chunk_text "hello").length⟩ :=
  ingest_chunk_indices (fun _ : Unit => "h")
    ⟨fun _ => .ok "", fun _ => .ok "", fun _ => .ok "hello"⟩
    (fun _ => .ok (0 : Nat)) (fun _ => none) ⟨[], []⟩ "a.txt" () "hello" ["hello"] [0]
    (fun _ => rfl) (by decide) (by decide) (by decide)

end AWSRAG
